import Mathlib

/-!
Verification of the funchain/fastchain node execution model against its
natural-language specification.  The definitions below are a shallow
embedding of src/fastchain/nodes.py and src/fastchain/chains.py: Python
values become the inductive type `Value` (Python `None` is `Value.none`,
which is also the absent-result sentinel threaded through containers),
a raised Python exception becomes the error side of `Except PyErr`, and
the mutable `Reporter` (from the external reporter module, specified in
section 6 of the spec) becomes an explicit list of recorded events.
-/

namespace Funchain

/-- Severity levels, from the reporter module: tri-state policy attached to
every node; default NORMAL. -/
inductive Severity
  | optional
  | normal
  | required
deriving DecidableEq, Repr

/-- Embedded Python values.  `Value.none` plays both roles Python `None`
plays in nodes.py: the value a function returns when it returns nothing,
and the absent-result sentinel containers test with `is None`. -/
inductive Value
  | none
  | bool (b : Bool)
  | int (n : Int)
  | str (s : String)
  | list (xs : List Value)
  | dict (kvs : List (Value × Value))

/-- Embedded Python exceptions.  `raised` stands for an exception raised by
a wrapped user callable; `notIterable` is the TypeError Python raises when
a Loop iterates a non-iterable input; `typeErr` and `valueErr` are the
TypeError/ValueError raised by library code itself. -/
inductive PyErr
  | raised (msg : String)
  | notIterable (v : Value)
  | typeErr (msg : String)
  | valueErr (msg : String)

/-- One record in a reporter sink: Node._process calls
reporter.success(input, output) on a normal return and
reporter.failure(error, severity, input) on a caught exception. -/
inductive Event
  | success (input : Value) (output : Value)
  | failure (err : PyErr) (sev : Severity) (input : Value)

/-- `v is None` as used by Chain/Loop/Model to test for the absent result. -/
def Value.isNone : Value → Bool
  | Value.none => true
  | _ => false

/-- Python iteration: lists yield elements, strings yield one-character
strings, dicts yield their keys; every other value raises TypeError. -/
def pyIter : Value → Option (List Value)
  | Value.list xs => Option.some xs
  | Value.str s => Option.some (s.data.map (fun c => Value.str (String.singleton c)))
  | Value.dict kvs => Option.some (kvs.map Prod.fst)
  | _ => Option.none

mutual
/-- Python structural equality between embedded values, used for dict key
lookup. -/
def vbeq : Value → Value → Bool
  | Value.none, Value.none => true
  | Value.bool a, Value.bool b => a == b
  | Value.int a, Value.int b => a == b
  | Value.str a, Value.str b => a == b
  | Value.list xs, Value.list ys => vlistBeq xs ys
  | Value.dict xs, Value.dict ys => vdictBeq xs ys
  | _, _ => false

def vlistBeq : List Value → List Value → Bool
  | [], [] => true
  | x :: xs, y :: ys => vbeq x y && vlistBeq xs ys
  | _, _ => false

def vdictBeq : List (Value × Value) → List (Value × Value) → Bool
  | [], [] => true
  | (k1, v1) :: xs, (k2, v2) :: ys => vbeq k1 k2 && vbeq v1 v2 && vdictBeq xs ys
  | _, _ => false
end

/-- Insertion into a Python dict: an existing key keeps its position and is
updated in place, a new key is appended. -/
def pyDictUpdate : List (Value × Value) → Value → Value → List (Value × Value)
  | [], k, v => [(k, v)]
  | (k0, v0) :: rest, k, v =>
    if vbeq k0 k then (k0, v) :: rest else (k0, v0) :: pyDictUpdate rest k v

/-- dict_converter from nodes.py: builds a dict from (branch, result)
pairs in declared order. -/
def pyDictOf (kvs : List (Value × Value)) : List (Value × Value) :=
  kvs.foldl (fun acc kv => pyDictUpdate acc kv.1 kv.2) []

mutual
/-- The synchronous node tree of nodes.py: Node (leaf wrapping one
callable), Chain, Loop, and the two Model variants.  Every node carries
the severity field of BaseNode; leaves carry their mandatory name, the
other kinds an optional one. -/
inductive NodeT
  | leaf (f : Value → Except PyErr Value) (name : String) (sev : Severity)
  | chain (children : NodeList) (name : Option String) (sev : Severity)
  | loop (child : NodeT) (name : Option String) (sev : Severity)
  | listModel (branches : BranchList) (name : Option String) (sev : Severity)
  | dictModel (branches : BranchList) (name : Option String) (sev : Severity)

/-- The list of children of a Chain. -/
inductive NodeList
  | nil
  | cons (head : NodeT) (tail : NodeList)

/-- The (branch key, child node) pairs of a Model. -/
inductive BranchList
  | bnil
  | bcons (key : Value) (child : NodeT) (tail : BranchList)
end

/-- BaseNode.severity of the embedded node. -/
def severityOf : NodeT → Severity
  | NodeT.leaf _ _ s => s
  | NodeT.chain _ _ s => s
  | NodeT.loop _ _ s => s
  | NodeT.listModel _ _ s => s
  | NodeT.dictModel _ _ s => s

/-- BaseNode.name of the embedded node (a leaf always has one). -/
def nameOf : NodeT → Option String
  | NodeT.leaf _ n _ => Option.some n
  | NodeT.chain _ n _ => n
  | NodeT.loop _ n _ => n
  | NodeT.listModel _ n _ => n
  | NodeT.dictModel _ n _ => n

mutual
/-- len() of a node: Node.__len__ returns 1, Chain/Model cache the sum of
their children at construction, Loop caches the child length. -/
def lenN : NodeT → Nat
  | NodeT.leaf _ _ _ => 1
  | NodeT.chain cs _ _ => lenNL cs
  | NodeT.loop c _ _ => lenN c
  | NodeT.listModel bs _ _ => lenBL bs
  | NodeT.dictModel bs _ _ => lenBL bs

def lenNL : NodeList → Nat
  | NodeList.nil => 0
  | NodeList.cons h t => lenN h + lenNL t

def lenBL : BranchList → Nat
  | BranchList.bnil => 0
  | BranchList.bcons _ c t => lenN c + lenBL t
end

mutual
/-- copy() of each node class.  Every __init__ resets severity to NORMAL
and none of the copy methods restores it; Loop.__init__ recomputes the
name from the child and Model.__init__ leaves the name unset, so those
are lost as well.  This mirrors the source exactly. -/
def copyN : NodeT → NodeT
  | NodeT.leaf f n _ => NodeT.leaf f n Severity.normal
  | NodeT.chain cs n _ => NodeT.chain (copyNL cs) n Severity.normal
  | NodeT.loop c _ _ => NodeT.loop (copyN c) (nameOf (copyN c)) Severity.normal
  | NodeT.listModel bs _ _ => NodeT.listModel (copyBL bs) Option.none Severity.normal
  | NodeT.dictModel bs _ _ => NodeT.dictModel (copyBL bs) Option.none Severity.normal

def copyNL : NodeList → NodeList
  | NodeList.nil => NodeList.nil
  | NodeList.cons h t => NodeList.cons (copyN h) (copyNL t)

def copyBL : BranchList → BranchList
  | BranchList.bnil => BranchList.bnil
  | BranchList.bcons k c t => BranchList.bcons k (copyN c) (copyBL t)
end

/-- Mutation `new.severity = s` performed on a fresh copy by
optional()/required(). -/
def setSeverity : NodeT → Severity → NodeT
  | NodeT.leaf f n _, s => NodeT.leaf f n s
  | NodeT.chain cs n _, s => NodeT.chain cs n s
  | NodeT.loop c n _, s => NodeT.loop c n s
  | NodeT.listModel bs n _, s => NodeT.listModel bs n s
  | NodeT.dictModel bs n _, s => NodeT.dictModel bs n s

/-- Mutation `new.name = name` performed on a fresh copy by named(). -/
def setName : NodeT → String → NodeT
  | NodeT.leaf f _ s, nm => NodeT.leaf f nm s
  | NodeT.chain cs _ s, nm => NodeT.chain cs (Option.some nm) s
  | NodeT.loop c _ s, nm => NodeT.loop c (Option.some nm) s
  | NodeT.listModel bs _ s, nm => NodeT.listModel bs (Option.some nm) s
  | NodeT.dictModel bs _ s, nm => NodeT.dictModel bs (Option.some nm) s

/-- BaseNode.optional: copy, then set severity OPTIONAL on the copy. -/
def optionalN (t : NodeT) : NodeT := setSeverity (copyN t) Severity.optional

/-- BaseNode.required: copy, then set severity REQUIRED on the copy. -/
def requiredN (t : NodeT) : NodeT := setSeverity (copyN t) Severity.required

/-- BaseNode.named: copy, then set the (validated) name on the copy.
validate_name lives in the missing _util module; per section 6 of the
spec it only checks the name shape, so on a valid name it is the
identity, which is how it is modelled here. -/
def namedN (t : NodeT) (nm : String) : NodeT := setName (copyN t) nm

mutual
/-- _process of each node class, with the reporter sink it was handed made
explicit as the event list `evs`.  A leaf calls the wrapped function,
records success or failure into its reporter and returns the result or
None.  Containers invoke each child through BaseNode.__call__, which
ignores the reporter passed to it and builds a fresh `Reporter(self.name)`
instead (nodes.py line 106), so a child runs with an empty sink whose
contents the container then discards; consequently containers return
their own sink unchanged. -/
def processN : NodeT → Value → List Event → Except PyErr (Value × List Event)
  | NodeT.leaf f _ sev, arg, evs =>
    match f arg with
    | Except.error e => Except.ok (Value.none, evs ++ [Event.failure e sev arg])
    | Except.ok v => Except.ok (v, evs ++ [Event.success arg v])
  | NodeT.chain cs _ _, arg, evs =>
    match chainNodes cs arg with
    | Except.error e => Except.error e
    | Except.ok v => Except.ok (v, evs)
  | NodeT.loop c _ _, arg, evs =>
    match pyIter arg with
    | Option.none => Except.error (PyErr.notIterable arg)
    | Option.some xs =>
      match loopElems c xs with
      | Except.error e => Except.error e
      | Except.ok rs => Except.ok (Value.list rs, evs)
  | NodeT.listModel bs _ _, arg, evs =>
    match branchResults bs arg with
    | Except.error e => Except.error e
    | Except.ok rs => Except.ok (Value.list (rs.map Prod.snd), evs)
  | NodeT.dictModel bs _ _, arg, evs =>
    match branchResults bs arg with
    | Except.error e => Except.error e
    | Except.ok rs => Except.ok (Value.dict (pyDictOf rs), evs)

/-- The loop body of Chain._process: thread the value left to right,
skip an absent result when the child is OPTIONAL, abort on any other
absent result.  Each child is invoked via __call__ with a fresh sink. -/
def chainNodes : NodeList → Value → Except PyErr Value
  | NodeList.nil, arg => Except.ok arg
  | NodeList.cons h t, arg =>
    match processN h arg [] with
    | Except.error e => Except.error e
    | Except.ok (res, _) =>
      if res.isNone then
        if severityOf h = Severity.optional then chainNodes t arg
        else Except.ok Value.none
      else chainNodes t res

/-- The comprehension of Loop._process: evaluate the child once per
element in order, keep the results that are not None. -/
def loopElems : NodeT → List Value → Except PyErr (List Value)
  | _, [] => Except.ok []
  | c, x :: rest =>
    match processN c x [] with
    | Except.error e => Except.error e
    | Except.ok (r, _) =>
      match loopElems c rest with
      | Except.error e => Except.error e
      | Except.ok rs => Except.ok (if r.isNone then rs else r :: rs)

/-- The generator of Model._process: apply every branch child to the same
input, drop a pair whose result is None when that child is OPTIONAL. -/
def branchResults : BranchList → Value → Except PyErr (List (Value × Value))
  | BranchList.bnil, _ => Except.ok []
  | BranchList.bcons k c rest, arg =>
    match processN c arg [] with
    | Except.error e => Except.error e
    | Except.ok (r, _) =>
      match branchResults rest arg with
      | Except.error e => Except.error e
      | Except.ok rs =>
        Except.ok (if r.isNone ∧ severityOf c = Severity.optional then rs else (k, r) :: rs)
end

/-- BaseNode.__call__: processes the argument with a fresh
`Reporter(self.name)` (discarding any reporter the caller supplied) and
returns the result value; the fresh sink contents are returned here so
theorems can talk about what the invocation reported. -/
def callN (t : NodeT) (arg : Value) : Except PyErr (Value × List Event) :=
  processN t arg []

/-- The value returned by BaseNode.__call__. -/
def callValue (t : NodeT) (arg : Value) : Except PyErr Value :=
  match processN t arg [] with
  | Except.error e => Except.error e
  | Except.ok (v, _) => Except.ok v

mutual
/-- The concurrent node tree: AsyncNode, AsyncChain, AsyncLoop and the two
AsyncModel variants, structurally identical to the synchronous one. -/
inductive ANodeT
  | leaf (f : Value → Except PyErr Value) (name : String) (sev : Severity)
  | chain (children : ANodeList) (name : Option String) (sev : Severity)
  | loop (child : ANodeT) (name : Option String) (sev : Severity)
  | listModel (branches : ABranchList) (name : Option String) (sev : Severity)
  | dictModel (branches : ABranchList) (name : Option String) (sev : Severity)

inductive ANodeList
  | nil
  | cons (head : ANodeT) (tail : ANodeList)

inductive ABranchList
  | bnil
  | bcons (key : Value) (child : ANodeT) (tail : ABranchList)
end

/-- BaseNode.severity of an async node. -/
def aseverityOf : ANodeT → Severity
  | ANodeT.leaf _ _ s => s
  | ANodeT.chain _ _ s => s
  | ANodeT.loop _ _ s => s
  | ANodeT.listModel _ _ s => s
  | ANodeT.dictModel _ _ s => s

/-- BaseNode.name of an async node. -/
def anameOf : ANodeT → Option String
  | ANodeT.leaf _ n _ => Option.some n
  | ANodeT.chain _ n _ => n
  | ANodeT.loop _ n _ => n
  | ANodeT.listModel _ n _ => n
  | ANodeT.dictModel _ n _ => n

mutual
/-- len() of an async node, same computation as the synchronous one. -/
def alenN : ANodeT → Nat
  | ANodeT.leaf _ _ _ => 1
  | ANodeT.chain cs _ _ => alenNL cs
  | ANodeT.loop c _ _ => alenN c
  | ANodeT.listModel bs _ _ => alenBL bs
  | ANodeT.dictModel bs _ _ => alenBL bs

def alenNL : ANodeList → Nat
  | ANodeList.nil => 0
  | ANodeList.cons h t => alenN h + alenNL t

def alenBL : ABranchList → Nat
  | ABranchList.bnil => 0
  | ABranchList.bcons _ c t => alenN c + alenBL t
end

mutual
/-- to_async() of each synchronous node class.  Node.to_async wraps the
callable with asyncify (an evaluate-then-resolve wrapper that preserves
the result and exceptions exactly, per section 4.2 of the spec) and, like
every constructor, resets the severity to NORMAL.  Chain.to_async and
Loop.to_async rebuild from converted children, again with NORMAL
severity.  Model.to_async instantiates the class AsyncModel directly,
which still has the abstract method convert, so Python raises a
TypeError at that call. -/
def toAsync : NodeT → Except PyErr ANodeT
  | NodeT.leaf f n _ => Except.ok (ANodeT.leaf f n Severity.normal)
  | NodeT.chain cs n _ =>
    match toAsyncList cs with
    | Except.error e => Except.error e
    | Except.ok acs => Except.ok (ANodeT.chain acs n Severity.normal)
  | NodeT.loop c _ _ =>
    match toAsync c with
    | Except.error e => Except.error e
    | Except.ok ac => Except.ok (ANodeT.loop ac (anameOf ac) Severity.normal)
  | NodeT.listModel _ _ _ =>
    Except.error (PyErr.typeErr ("cannot instantiate abstract class AsyncModel with abstract method convert"))
  | NodeT.dictModel _ _ _ =>
    Except.error (PyErr.typeErr ("cannot instantiate abstract class AsyncModel with abstract method convert"))

def toAsyncList : NodeList → Except PyErr ANodeList
  | NodeList.nil => Except.ok ANodeList.nil
  | NodeList.cons h t =>
    match toAsync h with
    | Except.error e => Except.error e
    | Except.ok ah =>
      match toAsyncList t with
      | Except.error e => Except.error e
      | Except.ok t2 => Except.ok (ANodeList.cons ah t2)
end

mutual
/-- _process of the concurrent node classes, for deterministic wrapped
callables.  The event loop is single-threaded and the embedded callables
never suspend, so asyncio.gather evaluates its tasks to completion in
creation order and returns their results in argument order; the
concurrent semantics therefore sequentialises exactly like the
synchronous one, except that AsyncModel._process first unpacks
`zip(*[...])` into three names, which raises ValueError when the model
has no branches.  As in the synchronous case, each child is invoked via
__call__, which replaces the passed reporter with a fresh one whose sink
the container discards. -/
def aprocessN : ANodeT → Value → List Event → Except PyErr (Value × List Event)
  | ANodeT.leaf f _ sev, arg, evs =>
    match f arg with
    | Except.error e => Except.ok (Value.none, evs ++ [Event.failure e sev arg])
    | Except.ok v => Except.ok (v, evs ++ [Event.success arg v])
  | ANodeT.chain cs _ _, arg, evs =>
    match achainNodes cs arg with
    | Except.error e => Except.error e
    | Except.ok v => Except.ok (v, evs)
  | ANodeT.loop c _ _, arg, evs =>
    match pyIter arg with
    | Option.none => Except.error (PyErr.notIterable arg)
    | Option.some xs =>
      match aloopElems c xs with
      | Except.error e => Except.error e
      | Except.ok rs => Except.ok (Value.list rs, evs)
  | ANodeT.listModel bs _ _, arg, evs =>
    match bs with
    | ABranchList.bnil =>
      Except.error (PyErr.valueErr ("not enough values to unpack (expected 3, got 0)"))
    | ABranchList.bcons k c rest =>
      match abranchResults (ABranchList.bcons k c rest) arg with
      | Except.error e => Except.error e
      | Except.ok rs => Except.ok (Value.list (rs.map Prod.snd), evs)
  | ANodeT.dictModel bs _ _, arg, evs =>
    match bs with
    | ABranchList.bnil =>
      Except.error (PyErr.valueErr ("not enough values to unpack (expected 3, got 0)"))
    | ABranchList.bcons k c rest =>
      match abranchResults (ABranchList.bcons k c rest) arg with
      | Except.error e => Except.error e
      | Except.ok rs => Except.ok (Value.dict (pyDictOf rs), evs)

def achainNodes : ANodeList → Value → Except PyErr Value
  | ANodeList.nil, arg => Except.ok arg
  | ANodeList.cons h t, arg =>
    match aprocessN h arg [] with
    | Except.error e => Except.error e
    | Except.ok (res, _) =>
      if res.isNone then
        if aseverityOf h = Severity.optional then achainNodes t arg
        else Except.ok Value.none
      else achainNodes t res

def aloopElems : ANodeT → List Value → Except PyErr (List Value)
  | _, [] => Except.ok []
  | c, x :: rest =>
    match aprocessN c x [] with
    | Except.error e => Except.error e
    | Except.ok (r, _) =>
      match aloopElems c rest with
      | Except.error e => Except.error e
      | Except.ok rs => Except.ok (if r.isNone then rs else r :: rs)

def abranchResults : ABranchList → Value → Except PyErr (List (Value × Value))
  | ABranchList.bnil, _ => Except.ok []
  | ABranchList.bcons k c rest, arg =>
    match aprocessN c arg [] with
    | Except.error e => Except.error e
    | Except.ok (r, _) =>
      match abranchResults rest arg with
      | Except.error e => Except.error e
      | Except.ok rs =>
        Except.ok (if r.isNone ∧ aseverityOf c = Severity.optional then rs else (k, r) :: rs)
end

/-- The value returned by awaiting an async node call (BaseNode.__call__
with the fresh reporter, then AsyncBaseNode._process awaited). -/
def acallValue (t : ANodeT) (arg : Value) : Except PyErr Value :=
  match aprocessN t arg [] with
  | Except.error e => Except.error e
  | Except.ok (v, _) => Except.ok v

/-- A raw chainable unit as accepted by build() in nodes.py: a
synchronous node, an async node, a plain callable (synchronous or async;
get_name of the missing _util module supplies its name), a list or dict
of chainables, or any other object. -/
inductive Chainable
  | cnode (t : NodeT)
  | canode (t : ANodeT)
  | cfunc (f : Value → Except PyErr Value) (name : String)
  | cafunc (f : Value → Except PyErr Value) (name : String)
  | clist (xs : List Chainable)
  | cdict (kvs : List (Value × Chainable))
  | cother (tyName : String)

/-- build() from nodes.py, embedded exactly as written: a synchronous
node is defensively copied, an async node or async callable raises
TypeError, a synchronous callable is wrapped into a Node with its
inferred name, and a list or dict first evaluates the assignment
`model, (branches, items) = ...` — which raises ValueError for an empty
collection because zip() yields nothing to unpack — and then falls
through to the final raise because the function body never returns the
computed model. -/
def build : Chainable → Except PyErr NodeT
  | Chainable.cnode t => Except.ok (copyN t)
  | Chainable.canode _ =>
    Except.error (PyErr.typeErr ("Cannot build a normal node from and async node"))
  | Chainable.cfunc f n => Except.ok (NodeT.leaf f n Severity.normal)
  | Chainable.cafunc _ _ =>
    Except.error (PyErr.typeErr ("Cannot build a normal node from and async function"))
  | Chainable.clist xs =>
    if xs.isEmpty then
      Except.error (PyErr.valueErr ("not enough values to unpack (expected 2, got 0)"))
    else Except.error (PyErr.typeErr ("Unsupported type list for chaining"))
  | Chainable.cdict kvs =>
    if kvs.isEmpty then
      Except.error (PyErr.valueErr ("not enough values to unpack (expected 2, got 0)"))
    else Except.error (PyErr.typeErr ("Unsupported type dict for chaining"))
  | Chainable.cother ty =>
    Except.error (PyErr.typeErr ("Unsupported type " ++ ty ++ " for chaining"))

/-- Chain.__call__ from chains.py: build a fresh root Reporter, run the
parsed core on the input, dispatch the finalized report to the
registered handlers (the handlers receive the report and return nothing,
so they leave the result unchanged), and return the result.  The core
comes from the factory module, which is not part of src/; here the core
is a nodes.py tree and its success flag — used only to select handlers —
is modelled from the spec as whether the result is not absent. -/
def chainWrapperCall (core : NodeT) (input : Value) : Except PyErr Value :=
  match callN core input with
  | Except.error e => Except.error e
  | Except.ok (result, _events) => Except.ok result

/-- The children of a Chain as a plain list. -/
def toListNL : NodeList → List NodeT
  | NodeList.nil => []
  | NodeList.cons h t => h :: toListNL t

/-- The (key, child) pairs of a Model as a plain list. -/
def toListBL : BranchList → List (Value × NodeT)
  | BranchList.bnil => []
  | BranchList.bcons k c t => (k, c) :: toListBL t

/-- The Chain algorithm as section 4.3 of the specification words it:
current starts at the input; each child in declared order is processed on
current; an absent result from an OPTIONAL child keeps current unchanged,
an absent result from any other child aborts the whole chain with the
absent sentinel at once; otherwise current becomes the result, and the
final current is returned when all children complete. -/
def chainSpec : List NodeT → Value → Except PyErr Value
  | [], current => Except.ok current
  | child :: rest, current =>
    match callValue child current with
    | Except.error e => Except.error e
    | Except.ok result =>
      if result.isNone then
        if severityOf child = Severity.optional then chainSpec rest current
        else Except.ok Value.none
      else chainSpec rest result

/-- One evaluation of the child per element, in element order, collecting
every result. -/
def mapCalls (c : NodeT) : List Value → Except PyErr (List Value)
  | [] => Except.ok []
  | x :: rest =>
    match callValue c x with
    | Except.error e => Except.error e
    | Except.ok r =>
      match mapCalls c rest with
      | Except.error e => Except.error e
      | Except.ok rs => Except.ok (r :: rs)

/-- The Loop algorithm as section 4.4 of the specification words it:
evaluate the wrapped child once per element, in element order, then keep
the ordered sequence of the results that are not absent. -/
def loopSpec (c : NodeT) (xs : List Value) : Except PyErr (List Value) :=
  match mapCalls c xs with
  | Except.error e => Except.error e
  | Except.ok rs => Except.ok (rs.filter (fun r => !r.isNone))

/-- One evaluation per branch, all on the same input, in declared order,
keeping (key, result, severity) triples. -/
def mapBranchCalls (arg : Value) : List (Value × NodeT) → Except PyErr (List (Value × Value × Severity))
  | [] => Except.ok []
  | kc :: rest =>
    match callValue kc.2 arg with
    | Except.error e => Except.error e
    | Except.ok r =>
      match mapBranchCalls arg rest with
      | Except.error e => Except.error e
      | Except.ok rs => Except.ok ((kc.1, r, severityOf kc.2) :: rs)

/-- The Model algorithm as section 4.5 of the specification words it:
apply every branch child to the same input, then drop exactly the pairs
whose result is absent and whose child severity is OPTIONAL; absent
results of NORMAL and REQUIRED branches survive into the conversion. -/
def modelSpec (bs : List (Value × NodeT)) (arg : Value) : Except PyErr (List (Value × Value)) :=
  match mapBranchCalls arg bs with
  | Except.error e => Except.error e
  | Except.ok rs =>
    Except.ok ((rs.filter
      (fun krs => !(krs.2.1.isNone && decide (krs.2.2 = Severity.optional)))).map
      (fun krs => (krs.1, krs.2.1)))

/-- A wrapped callable that returns its input unchanged. -/
def fId : Value → Except PyErr Value := fun v => Except.ok v

/-- A wrapped callable that always raises. -/
def fBoom : Value → Except PyErr Value := fun _ => Except.error (PyErr.raised ("boom"))

/-- A wrapped callable that successfully returns None. -/
def fNone : Value → Except PyErr Value := fun _ => Except.ok Value.none

/-- A wrapped callable that always returns 99. -/
def fConst99 : Value → Except PyErr Value := fun _ => Except.ok (Value.int 99)

/-- A wrapped callable that raises exactly on the string b and tags every
other string. -/
def fTag : Value → Except PyErr Value := fun v =>
  match v with
  | Value.str s =>
    if s = ("b") then Except.error (PyErr.raised ("boom"))
    else Except.ok (Value.str (s ++ ("!")))
  | w => Except.ok w

/-- A leaf wrapping the identity callable. -/
def idLeaf : NodeT := NodeT.leaf fId ("g") Severity.normal

/-- A leaf wrapping the always-raising callable, NORMAL severity. -/
def boomLeaf : NodeT := NodeT.leaf fBoom ("f") Severity.normal

/-- A leaf wrapping the always-raising callable, OPTIONAL severity. -/
def boomLeafOpt : NodeT := NodeT.leaf fBoom ("f") Severity.optional

/-- A leaf wrapping the callable that successfully returns None. -/
def noneLeaf : NodeT := NodeT.leaf fNone ("n") Severity.normal

/-- A leaf wrapping the constant-99 callable. -/
def leaf99 : NodeT := NodeT.leaf fConst99 ("c") Severity.normal

/-- A leaf wrapping fTag. -/
def tagLeaf : NodeT := NodeT.leaf fTag ("t") Severity.normal

/-- The two-step chain [raising leaf marked OPTIONAL, identity leaf]. -/
def chainOptThenId : NodeT :=
  NodeT.chain (NodeList.cons boomLeafOpt (NodeList.cons idLeaf NodeList.nil))
    Option.none Severity.normal

/-- The tree to_async() produces from chainOptThenId: same shape, every
severity reset to NORMAL. -/
def achainOptThenId : ANodeT :=
  ANodeT.chain
    (ANodeList.cons (ANodeT.leaf fBoom ("f") Severity.normal)
      (ANodeList.cons (ANodeT.leaf fId ("g") Severity.normal) ANodeList.nil))
    Option.none Severity.normal

/-- The chain [leaf returning None, leaf returning 99]. -/
def chainNoneThen99 : NodeT :=
  NodeT.chain (NodeList.cons noneLeaf (NodeList.cons leaf99 NodeList.nil))
    Option.none Severity.normal

/-- The chain holding the single always-raising leaf. -/
def chainBoom : NodeT :=
  NodeT.chain (NodeList.cons boomLeaf NodeList.nil) Option.none Severity.normal

/-- The empty chain, as returned by nd() with no argument. -/
def emptyChain : NodeT := NodeT.chain NodeList.nil Option.none Severity.normal

/-- A loop over the tagging leaf. -/
def loopTag : NodeT := NodeT.loop tagLeaf (Option.some ("t")) Severity.normal

/-- The chain [raising leaf marked OPTIONAL, Loop over the identity
leaf]: the OPTIONAL failure makes the chain thread the original input
into the Loop. -/
def chainOptBoomThenLoop : NodeT :=
  NodeT.chain
    (NodeList.cons boomLeafOpt
      (NodeList.cons (NodeT.loop idLeaf (Option.some ("g")) Severity.normal) NodeList.nil))
    Option.none Severity.normal

mutual
/-- Any error that escapes a node invocation is the TypeError of iterating
a non-iterable Loop input: the leaf boundary catches everything a wrapped
callable raises, so container-level iteration is the only raise site
left. -/
theorem processN_err (t : NodeT) (arg : Value) (evs : List Event) :
    ∀ e, processN t arg evs = Except.error e → ∃ w, e = PyErr.notIterable w := by
  cases t with
  | leaf f n s =>
    intro e h
    cases hf : f arg <;> simp [processN, hf] at h
  | chain cs n s =>
    intro e h
    simp only [processN] at h
    cases hc : chainNodes cs arg with
    | error e2 =>
      rw [hc] at h
      simp at h
      exact h ▸ chainNodes_err cs arg e2 hc
    | ok v => rw [hc] at h; simp at h
  | loop c n s =>
    intro e h
    simp only [processN] at h
    cases hi : pyIter arg with
    | none => rw [hi] at h; simp at h; exact ⟨arg, h.symm⟩
    | some xs =>
      rw [hi] at h
      simp only at h
      cases hl : loopElems c xs with
      | error e2 =>
        rw [hl] at h; simp at h
        exact h ▸ loopElems_err c xs e2 hl
      | ok rs => rw [hl] at h; simp at h
  | listModel bs n s =>
    intro e h
    simp only [processN] at h
    cases hb : branchResults bs arg with
    | error e2 =>
      rw [hb] at h; simp at h
      exact h ▸ branchResults_err bs arg e2 hb
    | ok rs => rw [hb] at h; simp at h
  | dictModel bs n s =>
    intro e h
    simp only [processN] at h
    cases hb : branchResults bs arg with
    | error e2 =>
      rw [hb] at h; simp at h
      exact h ▸ branchResults_err bs arg e2 hb
    | ok rs => rw [hb] at h; simp at h

theorem chainNodes_err (cs : NodeList) (arg : Value) :
    ∀ e, chainNodes cs arg = Except.error e → ∃ w, e = PyErr.notIterable w := by
  cases cs with
  | nil => intro e h; simp [chainNodes] at h
  | cons h t =>
    intro e he
    simp only [chainNodes] at he
    cases hp : processN h arg [] with
    | error e2 =>
      rw [hp] at he; simp at he
      exact he ▸ processN_err h arg [] e2 hp
    | ok p =>
      rw [hp] at he
      cases p with
      | mk res evs2 =>
        simp only at he
        by_cases hn : res.isNone
        · simp [hn] at he
          by_cases hs : severityOf h = Severity.optional
          · simp [hs] at he; exact chainNodes_err t arg e he
          · simp [hs] at he
        · simp [hn] at he; exact chainNodes_err t res e he

theorem loopElems_err (c : NodeT) (xs : List Value) :
    ∀ e, loopElems c xs = Except.error e → ∃ w, e = PyErr.notIterable w := by
  cases xs with
  | nil => intro e h; simp [loopElems] at h
  | cons x rest =>
    intro e he
    simp only [loopElems] at he
    cases hp : processN c x [] with
    | error e2 =>
      rw [hp] at he; simp at he
      exact he ▸ processN_err c x [] e2 hp
    | ok p =>
      rw [hp] at he
      cases p with
      | mk r evs2 =>
        simp only at he
        cases hl : loopElems c rest with
        | error e2 =>
          rw [hl] at he; simp at he
          exact he ▸ loopElems_err c rest e2 hl
        | ok rs => rw [hl] at he; simp at he

theorem branchResults_err (bs : BranchList) (arg : Value) :
    ∀ e, branchResults bs arg = Except.error e → ∃ w, e = PyErr.notIterable w := by
  cases bs with
  | bnil => intro e h; simp [branchResults] at h
  | bcons k c rest =>
    intro e he
    simp only [branchResults] at he
    cases hp : processN c arg [] with
    | error e2 =>
      rw [hp] at he; simp at he
      exact he ▸ processN_err c arg [] e2 hp
    | ok p =>
      rw [hp] at he
      cases p with
      | mk r evs2 =>
        simp only at he
        cases hb : branchResults rest arg with
        | error e2 =>
          rw [hb] at he; simp at he
          exact he ▸ branchResults_err rest arg e2 hb
        | ok rs => rw [hb] at he; simp at he
end

/-- Chain._process agrees, child by child, with the fold the
specification describes. -/
theorem chainNodes_eq_spec : (cs : NodeList) → (arg : Value) →
    chainNodes cs arg = chainSpec (toListNL cs) arg
  | NodeList.nil, arg => by simp [chainNodes, chainSpec, toListNL]
  | NodeList.cons h t, arg => by
    simp only [chainNodes, chainSpec, toListNL, callValue]
    cases hp : processN h arg [] with
    | error e => simp
    | ok p =>
      cases p with
      | mk res evs2 =>
        by_cases hn : res.isNone
        · by_cases hs : severityOf h = Severity.optional
          · simp [hn, hs, chainNodes_eq_spec t]
          · simp [hn, hs]
        · simp [hn, chainNodes_eq_spec t]

/-- The comprehension of Loop._process computes the map-then-filter the
specification describes. -/
theorem loopElems_eq_spec (c : NodeT) : (xs : List Value) →
    loopElems c xs = loopSpec c xs
  | [] => by simp [loopElems, loopSpec, mapCalls]
  | x :: rest => by
    have ih := loopElems_eq_spec c rest
    simp only [loopElems, loopSpec, mapCalls, callValue]
    cases hp : processN c x [] with
    | error e => simp
    | ok p =>
      cases p with
      | mk r evs2 =>
        simp only [loopSpec] at ih
        cases hm : mapCalls c rest with
        | error e =>
          rw [hm] at ih
          rw [ih]
        | ok rs =>
          rw [hm] at ih
          rw [ih]
          simp only
          by_cases hn : r.isNone
          · simp [hn, List.filter_cons]
          · simp [hn, List.filter_cons]

/-- The generator plus filter of Model._process computes the
map-then-filter the specification describes. -/
theorem branchResults_eq_spec : (bs : BranchList) → (arg : Value) →
    branchResults bs arg = modelSpec (toListBL bs) arg
  | BranchList.bnil, arg => by simp [branchResults, modelSpec, toListBL, mapBranchCalls]
  | BranchList.bcons k c rest, arg => by
    have ih := branchResults_eq_spec rest arg
    simp only [branchResults, modelSpec, toListBL, mapBranchCalls, callValue]
    cases hp : processN c arg [] with
    | error e => simp
    | ok p =>
      cases p with
      | mk r evs2 =>
        simp only [modelSpec] at ih
        cases hm : mapBranchCalls arg (toListBL rest) with
        | error e =>
          rw [hm] at ih
          rw [ih]
        | ok rs =>
          rw [hm] at ih
          rw [ih]
          simp only
          by_cases hn : r.isNone
          · by_cases hs : severityOf c = Severity.optional
            · simp [hn, hs, List.filter_cons]
            · simp [hn, hs, List.filter_cons]
          · simp [hn, List.filter_cons]

mutual
/-- copy() preserves the structural size of a node. -/
theorem lenN_copy : (t : NodeT) → lenN (copyN t) = lenN t
  | NodeT.leaf f n s => by simp [copyN, lenN]
  | NodeT.chain cs n s => by simp [copyN, lenN, lenNL_copy cs]
  | NodeT.loop c n s => by simp [copyN, lenN, lenN_copy c]
  | NodeT.listModel bs n s => by simp [copyN, lenN, lenBL_copy bs]
  | NodeT.dictModel bs n s => by simp [copyN, lenN, lenBL_copy bs]

theorem lenNL_copy : (cs : NodeList) → lenNL (copyNL cs) = lenNL cs
  | NodeList.nil => by simp [copyNL]
  | NodeList.cons h t => by simp [copyNL, lenNL, lenN_copy h, lenNL_copy t]

theorem lenBL_copy : (bs : BranchList) → lenBL (copyBL bs) = lenBL bs
  | BranchList.bnil => by simp [copyBL]
  | BranchList.bcons k c t => by simp [copyBL, lenBL, lenN_copy c, lenBL_copy t]
end

/-- Overwriting the severity field does not change the size. -/
theorem lenN_setSeverity (t : NodeT) (s : Severity) : lenN (setSeverity t s) = lenN t := by
  cases t <;> simp [setSeverity, lenN]

/-- Overwriting the name field does not change the size. -/
theorem lenN_setName (t : NodeT) (nm : String) : lenN (setName t nm) = lenN t := by
  cases t <;> simp [setName, lenN]

mutual
/-- When to_async() succeeds it preserves the structural size. -/
theorem alenN_toAsync : (t : NodeT) → ∀ a, toAsync t = Except.ok a → alenN a = lenN t
  | NodeT.leaf f n s => by
    intro a h
    simp [toAsync] at h
    rw [h.symm]
    simp [alenN, lenN]
  | NodeT.chain cs n s => by
    intro a h
    simp only [toAsync] at h
    cases hl : toAsyncList cs with
    | error e => rw [hl] at h; simp at h
    | ok acs =>
      rw [hl] at h
      simp at h
      rw [h.symm]
      simp [alenN, lenN, alenNL_toAsyncList cs acs hl]
  | NodeT.loop c n s => by
    intro a h
    simp only [toAsync] at h
    cases hc : toAsync c with
    | error e => rw [hc] at h; simp at h
    | ok ac =>
      rw [hc] at h
      simp at h
      rw [h.symm]
      simp [alenN, lenN, alenN_toAsync c ac hc]
  | NodeT.listModel bs n s => by intro a h; simp [toAsync] at h
  | NodeT.dictModel bs n s => by intro a h; simp [toAsync] at h

theorem alenNL_toAsyncList : (cs : NodeList) → ∀ acs, toAsyncList cs = Except.ok acs →
    alenNL acs = lenNL cs
  | NodeList.nil => by
    intro acs h
    simp [toAsyncList] at h
    rw [h.symm]
    simp [alenNL, lenNL]
  | NodeList.cons hd t => by
    intro acs h
    simp only [toAsyncList] at h
    cases hh : toAsync hd with
    | error e => rw [hh] at h; simp at h
    | ok ah =>
      rw [hh] at h
      cases ht : toAsyncList t with
      | error e => rw [ht] at h; simp at h
      | ok t2 =>
        rw [ht] at h
        simp at h
        rw [h.symm]
        simp [alenNL, lenNL, alenN_toAsync hd ah hh, alenNL_toAsyncList t t2 ht]
end

/-- C1 counterexample: an invocation can raise in a run where a wrapped
user callable raises.  In the chain [raising leaf marked OPTIONAL, Loop
over the identity leaf] on input 5, the callable raises (and is caught at
the leaf), the OPTIONAL skip threads the non-iterable 5 into the Loop,
and the TypeError of iterating it escapes the chain wrapper uncaught —
the invocation neither returns the successful output nor the absent
sentinel. -/
theorem c1_counterexample_invocation_raises_after_callable_failure :
    fBoom (Value.int 5) = Except.error (PyErr.raised ("boom")) ∧
    chainWrapperCall chainOptBoomThenLoop (Value.int 5) =
      Except.error (PyErr.notIterable (Value.int 5)) := by
  constructor
  · rfl
  · simp [chainWrapperCall, callN, processN, chainNodes, chainOptBoomThenLoop, boomLeafOpt,
      idLeaf, fBoom, fId, severityOf, Value.isNone, pyIter]

/-- C1 amended: the error raised by a wrapped callable itself never
surfaces: it is caught at the leaf boundary, recorded as a failure in the
reporter the leaf was processed with, and converted into the absent
sentinel; an invocation either returns a value (the successful output or
the absent sentinel) or raises only the container-level TypeError of a
Loop iterating a non-iterable value — which can also happen in runs where
a callable raised, when an OPTIONAL failure threads a non-iterable value
into a Loop. -/
theorem c1_amended_callable_errors_never_surface :
    (∀ (core : NodeT) (input : Value),
        (∃ r, chainWrapperCall core input = Except.ok r) ∨
        (∃ w, chainWrapperCall core input = Except.error (PyErr.notIterable w))) ∧
    (∀ (f : Value → Except PyErr Value) (name : String) (sev : Severity) (arg : Value)
        (evs : List Event) (e : PyErr), f arg = Except.error e →
        processN (NodeT.leaf f name sev) arg evs =
          Except.ok (Value.none, evs ++ [Event.failure e sev arg])) := by
  constructor
  · intro core input
    cases hc : processN core input [] with
    | error e =>
      obtain ⟨w, rfl⟩ := processN_err core input [] e hc
      right
      exact ⟨w, by simp [chainWrapperCall, callN, hc]⟩
    | ok p =>
      left
      exact ⟨p.1, by simp [chainWrapperCall, callN, hc]⟩
  · intro f name sev arg evs e hf
    simp [processN, hf]

/-- Witness for C1 at the always-raising callable on input 5. -/
theorem c1_witness :
    processN (NodeT.leaf fBoom ("f") Severity.normal) (Value.int 5) [] =
      Except.ok (Value.none, [Event.failure (PyErr.raised ("boom")) Severity.normal (Value.int 5)]) :=
  c1_amended_callable_errors_never_surface.2 fBoom ("f") Severity.normal
    (Value.int 5) [] (PyErr.raised ("boom")) rfl

/-- C2: Chain._process threads the value through the children in declared
order exactly as the fold of the specification describes: an absent result from
an OPTIONAL child keeps the prior value, an absent result from a NORMAL or
REQUIRED child ends the whole chain at once with the absent sentinel (the
spec-side fold never touches the remaining children), and when all
children complete the final value is returned. -/
theorem c2_chain_process_refines_spec_fold :
    ∀ (cs : NodeList) (name : Option String) (sev : Severity) (arg : Value) (evs : List Event),
      processN (NodeT.chain cs name sev) arg evs =
        match chainSpec (toListNL cs) arg with
        | Except.error e => Except.error e
        | Except.ok v => Except.ok (v, evs) := by
  intro cs name sev arg evs
  simp only [processN, chainNodes_eq_spec]

/-- C3: build() wraps a synchronous callable into a leaf, but raises a
TypeError for every list and dict because the collection branch computes
the model pieces and then falls through to the final raise instead of
returning; this contradicts the specified closed chainable set. -/
theorem c3_build_raises_type_error_on_collections :
    build (Chainable.cfunc fId ("f")) = Except.ok (NodeT.leaf fId ("f") Severity.normal) ∧
    build (Chainable.clist [Chainable.cfunc fId ("f")]) =
      Except.error (PyErr.typeErr ("Unsupported type list for chaining")) ∧
    build (Chainable.cdict [(Value.str ("k"), Chainable.cfunc fId ("f"))]) =
      Except.error (PyErr.typeErr ("Unsupported type dict for chaining")) := by
  refine ⟨rfl, by simp [build], by simp [build]⟩

/-- C4 counterexample: a wrapped callable that successfully returns None
(reported as a success) produces exactly the absent sentinel, and the
enclosing chain treats it as absent: it aborts instead of invoking the
next leaf, so the invocation returns None rather than 99. -/
theorem c4_counterexample_none_output_is_absent :
    processN noneLeaf (Value.int 5) [] =
      Except.ok (Value.none, [Event.success (Value.int 5) Value.none]) ∧
    callValue chainNoneThen99 (Value.int 5) = Except.ok Value.none ∧
    callValue chainNoneThen99 (Value.int 5) ≠ Except.ok (Value.int 99) := by
  have h2 : callValue chainNoneThen99 (Value.int 5) = Except.ok Value.none := by
    simp [callValue, processN, chainNodes, chainNoneThen99, noneLeaf, leaf99, fNone,
      fConst99, severityOf, Value.isNone]
  refine ⟨by simp [processN, noneLeaf, fNone], h2, ?_⟩
  rw [h2]
  intro h
  exact Value.noConfusion (Except.ok.inj h)

/-- C4 amended: the absent sentinel is Python None itself, so a successful
None return is indistinguishable from absence; but every successful
non-None value — including falsy ones such as False, 0, an empty string or
an empty list — is treated as present by all three containers: a chain
threads it into the rest, a loop keeps it, a model keeps its pair. -/
theorem c4_amended_non_none_falsy_values_are_present :
    ∀ (v : Value), v.isNone = false →
      ∀ (name : String) (sev : Severity) (t : NodeList) (arg k : Value),
        chainNodes (NodeList.cons (NodeT.leaf (fun _ => Except.ok v) name sev) t) arg =
          chainNodes t v ∧
        loopElems (NodeT.leaf (fun _ => Except.ok v) name sev) [arg] = Except.ok [v] ∧
        branchResults (BranchList.bcons k (NodeT.leaf (fun _ => Except.ok v) name sev)
            BranchList.bnil) arg = Except.ok [(k, v)] := by
  intro v hv name sev t arg k
  refine ⟨?_, ?_, ?_⟩
  · simp [chainNodes, processN, hv]
  · simp [loopElems, processN, hv]
  · simp [branchResults, processN, hv]

/-- Witness for C4 at the successful False return. -/
theorem c4_witness :
    chainNodes (NodeList.cons (NodeT.leaf (fun _ => Except.ok (Value.bool false)) ("b")
        Severity.normal) NodeList.nil) (Value.int 1) =
      chainNodes NodeList.nil (Value.bool false) ∧
    loopElems (NodeT.leaf (fun _ => Except.ok (Value.bool false)) ("b") Severity.normal)
        [Value.int 1] = Except.ok [Value.bool false] ∧
    branchResults (BranchList.bcons (Value.str ("x"))
        (NodeT.leaf (fun _ => Except.ok (Value.bool false)) ("b") Severity.normal)
        BranchList.bnil) (Value.int 1) =
      Except.ok [(Value.str ("x"), Value.bool false)] :=
  c4_amended_non_none_falsy_values_are_present (Value.bool false) rfl ("b")
    Severity.normal NodeList.nil (Value.int 1) (Value.str ("x"))

/-- C5: the root reporter of an invocation receives no record at all from
descendant leaves: BaseNode.__call__ discards the scoped sub-reporter the
container passes and processes the child with a fresh reporter whose
records the container then drops, so a chain whose only leaf fails ends
its invocation with an empty root sink even though the leaf, processed
directly, does record its failure. -/
theorem c5_root_reporter_receives_no_leaf_records :
    callN chainBoom (Value.int 5) = Except.ok (Value.none, []) ∧
    processN boomLeaf (Value.int 5) [] =
      Except.ok (Value.none, [Event.failure (PyErr.raised ("boom")) Severity.normal (Value.int 5)]) := by
  constructor
  · simp [callN, processN, chainNodes, chainBoom, boomLeaf, fBoom, severityOf, Value.isNone]
  · simp [processN, boomLeaf, fBoom]

/-- C6: a loop over an iterable input evaluates its child once per element
in element order, discards the absent per-element results, and returns the
ordered list of surviving outputs — by the shape of the result it is never
itself absent and no element failure or severity aborts it. -/
theorem c6_loop_keeps_ordered_non_absent_results :
    ∀ (c : NodeT) (name : Option String) (sev : Severity) (arg : Value)
      (xs : List Value) (evs : List Event), pyIter arg = Option.some xs →
      processN (NodeT.loop c name sev) arg evs =
        match loopSpec c xs with
        | Except.error e => Except.error e
        | Except.ok rs => Except.ok (Value.list rs, evs) := by
  intro c name sev arg xs evs hi
  simp only [processN, hi, loopElems_eq_spec]

/-- Witness for C6: the loop over the tagging leaf on [a, b, c], where the
callable raises only on b, returns the two-element ordered list. -/
theorem c6_witness :
    processN (NodeT.loop tagLeaf (Option.some ("t")) Severity.normal)
        (Value.list [Value.str ("a"), Value.str ("b"), Value.str ("c")]) [] =
      Except.ok (Value.list [Value.str ("a!"), Value.str ("c!")], []) := by
  rw [c6_loop_keeps_ordered_non_absent_results tagLeaf (Option.some ("t")) Severity.normal
    (Value.list [Value.str ("a"), Value.str ("b"), Value.str ("c")])
    [Value.str ("a"), Value.str ("b"), Value.str ("c")] [] rfl]
  simp [loopSpec, mapCalls, callValue, processN, tagLeaf, fTag, Value.isNone]

/-- C7: a branching model applies every branch child to the same input,
omits exactly the pairs whose result is absent and whose child is
OPTIONAL, feeds the surviving pairs — including absent results of NORMAL
and REQUIRED branches — into the list or dict conversion, and by the shape
of the result never returns absent and never aborts on a branch
failure. -/
theorem c7_model_omits_only_optional_absent_branches :
    ∀ (bs : BranchList) (name : Option String) (sev : Severity) (arg : Value) (evs : List Event),
      processN (NodeT.listModel bs name sev) arg evs =
        (match modelSpec (toListBL bs) arg with
         | Except.error e => Except.error e
         | Except.ok rs => Except.ok (Value.list (rs.map Prod.snd), evs)) ∧
      processN (NodeT.dictModel bs name sev) arg evs =
        (match modelSpec (toListBL bs) arg with
         | Except.error e => Except.error e
         | Except.ok rs => Except.ok (Value.dict (pyDictOf rs), evs)) := by
  intro bs name sev arg evs
  constructor <;> simp only [processN, branchResults_eq_spec]

/-- C8: named() (and likewise the severity markers) does not change only
the targeted attribute: because every copy() rebuilds nodes through
constructors that reset severity to NORMAL, renaming an OPTIONAL leaf
yields a NORMAL one, and required() on a chain also silently resets its
OPTIONAL severity of the child. -/
theorem c8_named_resets_severity_through_copy :
    severityOf (optionalN boomLeaf) = Severity.optional ∧
    severityOf (namedN (optionalN boomLeaf) ("x")) = Severity.normal ∧
    nameOf (namedN (optionalN boomLeaf) ("x")) = Option.some ("x") ∧
    requiredN (NodeT.chain (NodeList.cons (NodeT.leaf fBoom ("f") Severity.optional)
        NodeList.nil) Option.none Severity.normal) =
      NodeT.chain (NodeList.cons (NodeT.leaf fBoom ("f") Severity.normal) NodeList.nil)
        Option.none Severity.required := by
  refine ⟨?_, ?_, ?_, ?_⟩ <;>
    simp [optionalN, requiredN, namedN, copyN, copyNL, setSeverity, setName,
      severityOf, nameOf, boomLeaf]

/-- C9: the synchronous tree [raising leaf marked OPTIONAL, identity leaf]
returns the original input 5, but its concurrent form obtained through
to_async() returns the absent sentinel, because to_async() resets every
severity to NORMAL; moreover a synchronous Model with no branches returns
an empty dict while the concurrent AsyncModel raises ValueError when
unpacking zip() of no tasks — so sync and concurrent forms do not produce
structurally identical outputs. -/
theorem c9_sync_and_async_forms_diverge :
    callValue chainOptThenId (Value.int 5) = Except.ok (Value.int 5) ∧
    toAsync chainOptThenId = Except.ok achainOptThenId ∧
    acallValue achainOptThenId (Value.int 5) = Except.ok Value.none ∧
    Value.int 5 ≠ Value.none ∧
    processN (NodeT.dictModel BranchList.bnil Option.none Severity.normal) (Value.int 5) [] =
      Except.ok (Value.dict [], []) ∧
    aprocessN (ANodeT.dictModel ABranchList.bnil Option.none Severity.normal) (Value.int 5) [] =
      Except.error (PyErr.valueErr ("not enough values to unpack (expected 3, got 0)")) := by
  refine ⟨?_, ?_, ?_, ?_, ?_, ?_⟩
  · simp [callValue, processN, chainNodes, chainOptThenId, boomLeafOpt, idLeaf, fBoom, fId,
      severityOf, Value.isNone]
  · simp [toAsync, toAsyncList, chainOptThenId, boomLeafOpt, idLeaf, anameOf, achainOptThenId]
  · simp [acallValue, aprocessN, achainNodes, achainOptThenId, fBoom, fId,
      aseverityOf, Value.isNone]
  · intro h; exact Value.noConfusion h
  · simp [processN, branchResults, pyDictOf]
  · simp [aprocessN]

/-- C10 counterexample: the empty chain, as returned by nd() with no
argument, has size 0, so size is not at least 1 for every node. -/
theorem c10_counterexample_empty_chain_has_size_zero :
    lenN emptyChain = 0 := by
  simp [lenN, lenNL, emptyChain]

/-- C10 amended: a leaf has size 1 and the size of every container is the
sum of the sizes of its children — hence an empty chain has size 0, not 1 — and the
size is preserved by every copy-producing operation: copy(), optional(),
required(), named(name) and a successful to_async(). -/
theorem c10_amended_size_invariant :
    (∀ (f : Value → Except PyErr Value) (n : String) (s : Severity),
        lenN (NodeT.leaf f n s) = 1) ∧
    (∀ (cs : NodeList) (n : Option String) (s : Severity),
        lenN (NodeT.chain cs n s) = lenNL cs) ∧
    (∀ t, lenN (copyN t) = lenN t) ∧
    (∀ t, lenN (optionalN t) = lenN t) ∧
    (∀ t, lenN (requiredN t) = lenN t) ∧
    (∀ t nm, lenN (namedN t nm) = lenN t) ∧
    (∀ t a, toAsync t = Except.ok a → alenN a = lenN t) := by
  refine ⟨fun f n s => by simp [lenN], fun cs n s => by simp [lenN], lenN_copy, ?_, ?_, ?_,
    alenN_toAsync⟩
  · intro t
    simp [optionalN, lenN_setSeverity, lenN_copy]
  · intro t
    simp [requiredN, lenN_setSeverity, lenN_copy]
  · intro t nm
    simp [namedN, lenN_setName, lenN_copy]

/-- Witness for C10 at the one-leaf chain converted with to_async(). -/
theorem c10_witness :
    alenN (ANodeT.chain (ANodeList.cons (ANodeT.leaf fBoom ("f") Severity.normal)
        ANodeList.nil) Option.none Severity.normal) = lenN chainBoom :=
  c10_amended_size_invariant.2.2.2.2.2.2 chainBoom
    (ANodeT.chain (ANodeList.cons (ANodeT.leaf fBoom ("f") Severity.normal)
      ANodeList.nil) Option.none Severity.normal)
    (by simp [toAsync, toAsyncList, chainBoom, boomLeaf, anameOf])

end Funchain
